import Mathlib

/-!
Verification of the CSV→Field-Mapping→Enrichment→Card-Assembly pipeline of
the anki-japanese-app repository, as a shallow embedding in Lean 4.

The embedded functions follow the TypeScript sources:
  * `validateMapping`, `findPossibleMatches` — the FieldMapper component
    (frontend `FieldMapper.tsx`, the file shipped as `src/unnamed/part_007`);
  * `validateFieldMapping` — the API-client wrapper (`src/unnamed/part_004`);
  * `handleLookup` / `handleAddToCollection` — the word-lookup page
    (`src/unnamed/part_007`, second component).
The backend EnrichmentOrchestrator and CardAssembler (Python, not shipped
under `src/`) are modelled from the spec; their doc comments say so.
-/

namespace AnkiApp

/-- A field mapping: for each canonical Anki field the name of the CSV column
mapped to it, `""` meaning "not mapped".  Mirrors the
`Record<string, string>` mapping objects of the frontend, whose keys are the
five canonical ids `japanese`, `english`, `reading`, `example`, `tags`. -/
structure FieldMapping where
  japanese : String
  english : String
  reading : String
  «example» : String
  tags : String
deriving DecidableEq

/-- One entry of the frontend's `ankiFields` constant: id, display label and
whether the field is required. -/
structure AnkiField where
  id : String
  label : String
  required : Bool
deriving DecidableEq

/-- The `ankiFields` constant of the FieldMapper component: only `japanese`
is required. -/
def ankiFields : List AnkiField :=
  [ ⟨"japanese", "Japanese Word", true⟩,
    ⟨"english", "English Meaning", false⟩,
    ⟨"reading", "Reading/Pronunciation", false⟩,
    ⟨"example", "Example Sentence", false⟩,
    ⟨"tags", "Tags", false⟩ ]

/-- The five canonical field ids, in the order the mapping record holds them. -/
def canonicalIds : List String :=
  ["japanese", "english", "reading", "example", "tags"]

/-- `mapping[fieldId]` of the TypeScript record, for the five canonical keys
(any other key is absent, i.e. `""`). -/
def lookupField (m : FieldMapping) : String → String
  | "japanese" => m.japanese
  | "english" => m.english
  | "reading" => m.reading
  | "example" => m.«example»
  | "tags" => m.tags
  | _ => ""

/-- `Object.entries(mapping)`: the five (field id, column name) pairs in
record order. -/
def mappingEntries (m : FieldMapping) : List (String × String) :=
  [ ("japanese", m.japanese), ("english", m.english), ("reading", m.reading),
    ("example", m.«example»), ("tags", m.tags) ]

/-- `Object.values(mapping)`. -/
def mappingValues (m : FieldMapping) : List String :=
  (mappingEntries m).map Prod.snd

/-- `Object.values(mapping).filter(Boolean)`: the mapped column names,
dropping the empty string (the only falsy string). -/
def usedHeaders (m : FieldMapping) : List String :=
  (mappingValues m).filter (fun s => s != "")

/-- The duplicate scan of `validateMapping`:
`usedHeaders.filter(item => { if (seen.has(item)) return true; seen.add(item);
return false; })` — an element is kept exactly when it was already seen. -/
def dupScan : List String → List String → List String
  | [], _ => []
  | x :: xs, seen => if x ∈ seen then x :: dupScan xs seen else dupScan xs (x :: seen)

/-- The `duplicates` array computed inside `validateMapping`. -/
def duplicates (m : FieldMapping) : List String :=
  dupScan (usedHeaders m) []

/-- The duplicate-mapping error message of `validateMapping`. -/
def dupMsg : String := "This column is used in multiple fields"

/-- The required-field errors: for every `ankiFields` entry with
`field.required && (!mapping[field.id] || mapping[field.id] === '')` the
record gets `errors[field.id] = `${field.label} is required``. -/
def requiredErrors (m : FieldMapping) : List (String × String) :=
  ankiFields.filterMap fun f =>
    if f.required && (lookupField m f.id == "") then
      some (f.id, f.label ++ " is required")
    else none

/-- The duplicate-mapping errors: `Object.entries(mapping).forEach(([field,
header]) => { if (duplicates.includes(header)) errors[field] = dupMsg })`. -/
def dupErrors (m : FieldMapping) : List (String × String) :=
  (mappingEntries m).filterMap fun p =>
    if p.2 ∈ duplicates m then some (p.1, dupMsg) else none

/-- `validateMapping` of the FieldMapper component.  Returns the `isValid`
flag together with the `errors` record, the record represented as the list of
key/message assignments in the order the code performs them (`recordGet`
below reads it with the record's last-write-wins semantics).  The branch
condition `(usedHeaders m).Nodup` is the code's
`usedHeaders.length === uniqueHeaders.size` (a list has as many elements as
its set of elements exactly when it has no duplicate). -/
def validateMapping (m : FieldMapping) : Bool × List (String × String) :=
  let reqErrs := requiredErrors m
  if (usedHeaders m).Nodup then
    (reqErrs.isEmpty, reqErrs)
  else
    (false, reqErrs ++ dupErrors m)

/-- Read a key from an assignment list with record semantics: the last
assignment to the key wins, `none` when the key was never assigned. -/
def recordGet (l : List (String × String)) (k : String) : Option String :=
  l.foldl (fun acc p => if p.1 == k then some p.2 else acc) none

/-- The component-state view of a `validateMapping` call: the call reads
nothing but its argument, replaces the `validationErrors` component state
with the freshly computed record (`setValidationErrors(errors)`) and returns
`isValid`.  The incoming error state is discarded, never read. -/
def validateMappingRun (m : FieldMapping)
    (_validationErrors : List (String × String)) : Bool × List (String × String) :=
  validateMapping m

/-- Membership in the duplicate scan: an element is reported exactly when it
was already in `seen` or occurs at least twice in the scanned list. -/
theorem mem_dupScan {l : List String} {seen : List String} {v : String} :
    v ∈ dupScan l seen ↔ (v ∈ seen ∧ v ∈ l) ∨ 2 ≤ l.count v := by
  induction l generalizing seen with
  | nil => simp [dupScan]
  | cons x xs ih =>
    by_cases hx : x ∈ seen
    · rw [dupScan, if_pos hx]
      rcases eq_or_ne v x with rfl | hvx
      · simp [hx, List.mem_cons]
      · simp only [List.mem_cons, ih, List.count_cons]
        have : (x == v) = false := by simp [hvx.symm]
        simp [hvx, this]
    · rw [dupScan, if_neg hx]
      rcases eq_or_ne v x with rfl | hvx
      · rw [ih]
        have hcount : (v :: xs).count v = xs.count v + 1 := by
          simp [List.count_cons]
        constructor
        · rintro (⟨hv1, hv2⟩ | h2)
          · right
            have : 0 < xs.count v := List.count_pos_iff.2 hv2
            omega
          · right
            rw [hcount]
            omega
        · rintro (⟨h1', h2'⟩ | h2)
          · exact absurd h1' hx
          · rw [hcount] at h2
            have hvxs : v ∈ xs := List.count_pos_iff.1 (by omega)
            exact Or.inl ⟨List.mem_cons_self _ _, hvxs⟩
      · rw [ih]
        have : (x == v) = false := by simp [hvx.symm]
        simp [List.mem_cons, List.count_cons, this, hvx, hx]

/-- Since `japanese` is the only required field, the required-field errors
are exactly one error when it is unmapped and none otherwise. -/
theorem requiredErrors_eq (m : FieldMapping) :
    requiredErrors m
      = if m.japanese = "" then [("japanese", "Japanese Word is required")] else [] := by
  by_cases h : m.japanese = "" <;>
    simp [requiredErrors, ankiFields, lookupField, h]

/-- The duplicate-mapping errors spelt out per canonical field. -/
theorem dupErrors_eq (m : FieldMapping) :
    dupErrors m
      = (if m.japanese ∈ duplicates m then [("japanese", dupMsg)] else [])
        ++ (if m.english ∈ duplicates m then [("english", dupMsg)] else [])
        ++ (if m.reading ∈ duplicates m then [("reading", dupMsg)] else [])
        ++ (if m.«example» ∈ duplicates m then [("example", dupMsg)] else [])
        ++ (if m.tags ∈ duplicates m then [("tags", dupMsg)] else []) := by
  by_cases h1 : m.japanese ∈ duplicates m <;>
  by_cases h2 : m.english ∈ duplicates m <;>
  by_cases h3 : m.reading ∈ duplicates m <;>
  by_cases h4 : m.«example» ∈ duplicates m <;>
  by_cases h5 : m.tags ∈ duplicates m <;>
  simp [dupErrors, mappingEntries, h1, h2, h3, h4, h5]

/-- In an association list whose keys are distinct, a value attached to two
different keys occurs at least twice among the values. -/
theorem two_le_count_of_two_mem {l : List (String × String)}
    (hnd : (l.map Prod.fst).Nodup) {f g v : String}
    (hf : (f, v) ∈ l) (hg : (g, v) ∈ l) (hne : f ≠ g) :
    2 ≤ (l.map Prod.snd).count v := by
  induction l with
  | nil => simp at hf
  | cons p t ih =>
    rw [List.map_cons, List.nodup_cons] at hnd
    have hmono : ∀ {u : String}, 2 ≤ (t.map Prod.snd).count u
        → 2 ≤ ((p :: t).map Prod.snd).count u := by
      intro u hu
      rw [List.map_cons, List.count_cons]
      omega
    rcases List.mem_cons.1 hf with hfp | hft
    · rcases List.mem_cons.1 hg with hgp | hgt
      · rw [← hgp] at hfp
        exact absurd (congrArg Prod.fst hfp) hne
      · have hvp : p.2 = v := by rw [← hfp]
        have hvt : v ∈ t.map Prod.snd := List.mem_map.2 ⟨(g, v), hgt, rfl⟩
        have : 0 < (t.map Prod.snd).count v := List.count_pos_iff.2 hvt
        rw [List.map_cons, List.count_cons, hvp]
        simp only [beq_self_eq_true, if_true]
        omega
    · rcases List.mem_cons.1 hg with hgp | hgt
      · have hvp : p.2 = v := by rw [← hgp]
        have hvt : v ∈ t.map Prod.snd := List.mem_map.2 ⟨(f, v), hft, rfl⟩
        have : 0 < (t.map Prod.snd).count v := List.count_pos_iff.2 hvt
        rw [List.map_cons, List.count_cons, hvp]
        simp only [beq_self_eq_true, if_true]
        omega
      · exact hmono (ih hnd.2 hft hgt)

/-- Filtering out the empty string does not change the number of occurrences
of a non-empty column name. -/
theorem count_usedHeaders (m : FieldMapping) {v : String} (hv : v ≠ "") :
    (usedHeaders m).count v = (mappingValues m).count v := by
  have hb : ((fun s => s != "") v) = true := by simpa [bne_iff_ne] using hv
  exact List.count_filter hb

/-- The keys of the mapping record, in order. -/
theorem entries_keys (m : FieldMapping) :
    (mappingEntries m).map Prod.fst = canonicalIds := by
  simp [mappingEntries, canonicalIds]

/-- A canonical field id together with its mapped column is one of the
record's entries. -/
theorem lookupField_mem_entries {m : FieldMapping} {fid : String}
    (h : fid ∈ canonicalIds) : (fid, lookupField m fid) ∈ mappingEntries m := by
  simp only [canonicalIds, List.mem_cons, List.not_mem_nil, or_false] at h
  rcases h with rfl | rfl | rfl | rfl | rfl <;>
    simp [mappingEntries, lookupField]

/-- When validation takes the duplicate branch, every canonical field whose
(non-empty) column is in the duplicate list reads the duplicate-mapping
message from the final errors record. -/
theorem recordGet_dupError (m : FieldMapping) {fid : String}
    (hfid : fid ∈ canonicalIds) (hv : lookupField m fid ≠ "")
    (hdup : lookupField m fid ∈ duplicates m)
    (hnd : ¬ (usedHeaders m).Nodup) :
    recordGet (validateMapping m).2 fid = some dupMsg := by
  have hval : validateMapping m = (false, requiredErrors m ++ dupErrors m) := by
    simp [validateMapping, hnd]
  rw [hval]
  simp only [canonicalIds, List.mem_cons, List.not_mem_nil, or_false] at hfid
  rcases hfid with rfl | rfl | rfl | rfl | rfl
  · simp only [lookupField] at hv hdup
    rw [requiredErrors_eq, dupErrors_eq, if_neg hv, if_pos hdup]
    by_cases h2 : m.english ∈ duplicates m <;>
    by_cases h3 : m.reading ∈ duplicates m <;>
    by_cases h4 : m.«example» ∈ duplicates m <;>
    by_cases h5 : m.tags ∈ duplicates m <;>
    simp [h2, h3, h4, h5, recordGet]
  · simp only [lookupField] at hv hdup
    rw [requiredErrors_eq, dupErrors_eq, if_pos hdup]
    by_cases h0 : m.japanese = "" <;>
    by_cases h1 : m.japanese ∈ duplicates m <;>
    by_cases h3 : m.reading ∈ duplicates m <;>
    by_cases h4 : m.«example» ∈ duplicates m <;>
    by_cases h5 : m.tags ∈ duplicates m <;>
    simp [h0, h1, h3, h4, h5, recordGet]
  · simp only [lookupField] at hv hdup
    rw [requiredErrors_eq, dupErrors_eq, if_pos hdup]
    by_cases h0 : m.japanese = "" <;>
    by_cases h1 : m.japanese ∈ duplicates m <;>
    by_cases h2 : m.english ∈ duplicates m <;>
    by_cases h4 : m.«example» ∈ duplicates m <;>
    by_cases h5 : m.tags ∈ duplicates m <;>
    simp [h0, h1, h2, h4, h5, recordGet]
  · simp only [lookupField] at hv hdup
    rw [requiredErrors_eq, dupErrors_eq, if_pos hdup]
    by_cases h0 : m.japanese = "" <;>
    by_cases h1 : m.japanese ∈ duplicates m <;>
    by_cases h2 : m.english ∈ duplicates m <;>
    by_cases h3 : m.reading ∈ duplicates m <;>
    by_cases h5 : m.tags ∈ duplicates m <;>
    simp [h0, h1, h2, h3, h5, recordGet]
  · simp only [lookupField] at hv hdup
    rw [requiredErrors_eq, dupErrors_eq, if_pos hdup]
    by_cases h0 : m.japanese = "" <;>
    by_cases h1 : m.japanese ∈ duplicates m <;>
    by_cases h2 : m.english ∈ duplicates m <;>
    by_cases h3 : m.reading ∈ duplicates m <;>
    by_cases h4 : m.«example» ∈ duplicates m <;>
    simp [h0, h1, h2, h3, h4, recordGet]

end AnkiApp

namespace AnkiApp

/-- C8: the mapping {japanese: Term, english: Definition, reading:
Pronunciation} over the header set {Term, Definition, Pronunciation} passes
`validateMapping` with `valid = true` and an empty errors record (and indeed
every mapped column is one of the headers). -/
theorem validateMapping_term_definition_pronunciation :
    validateMapping ⟨"Term", "Definition", "Pronunciation", "", ""⟩ = (true, [])
      ∧ ∀ v ∈ usedHeaders ⟨"Term", "Definition", "Pronunciation", "", ""⟩,
          v ∈ ["Term", "Definition", "Pronunciation"] := by
  decide

/-- C1: whenever two distinct canonical fields are mapped to the same
(non-empty) column name, `validateMapping` reports `valid = false` and the
errors record holds the message "This column is used in multiple fields" for
both of the colliding fields — since the pair of fields is arbitrary, every
canonical field mapped to a colliding column receives the error. -/
theorem validateMapping_duplicate_column (m : FieldMapping) (f g : String)
    (hf : f ∈ canonicalIds) (hg : g ∈ canonicalIds) (hne : f ≠ g)
    (heq : lookupField m f = lookupField m g) (hv : lookupField m f ≠ "") :
    (validateMapping m).1 = false
      ∧ recordGet (validateMapping m).2 f = some dupMsg
      ∧ recordGet (validateMapping m).2 g = some dupMsg := by
  have hfe : (f, lookupField m f) ∈ mappingEntries m := lookupField_mem_entries hf
  have hge : (g, lookupField m f) ∈ mappingEntries m := by
    rw [heq]
    exact lookupField_mem_entries hg
  have hknd : ((mappingEntries m).map Prod.fst).Nodup := by
    rw [entries_keys]
    decide
  have hcnt : 2 ≤ (mappingValues m).count (lookupField m f) :=
    two_le_count_of_two_mem hknd hfe hge hne
  have hcu : 2 ≤ (usedHeaders m).count (lookupField m f) := by
    rw [count_usedHeaders m hv]
    exact hcnt
  have hnd : ¬ (usedHeaders m).Nodup := by
    intro hn
    have := List.nodup_iff_count_le_one.1 hn (lookupField m f)
    omega
  have hdup : lookupField m f ∈ duplicates m := mem_dupScan.2 (Or.inr hcu)
  refine ⟨by simp [validateMapping, hnd], recordGet_dupError m hf hv hdup hnd, ?_⟩
  have hv' : lookupField m g ≠ "" := heq ▸ hv
  exact recordGet_dupError m hg hv' (heq ▸ hdup) hnd

/-- Witness for C1: the mapping {japanese: ColA, english: ColA} is rejected
with the duplicate-column error attributed to both fields. -/
theorem validateMapping_duplicate_column_witness :
    (validateMapping ⟨"ColA", "ColA", "", "", ""⟩).1 = false
      ∧ recordGet (validateMapping ⟨"ColA", "ColA", "", "", ""⟩).2 "japanese"
          = some dupMsg
      ∧ recordGet (validateMapping ⟨"ColA", "ColA", "", "", ""⟩).2 "english"
          = some dupMsg :=
  validateMapping_duplicate_column ⟨"ColA", "ColA", "", "", ""⟩ "japanese" "english"
    (by decide) (by decide) (by decide) rfl (by decide)

/-- C2 counterexample: `validateMapping` never consults the analyzed CSV's
header set, so the mapping {japanese: Nonexistent} is reported valid even
against the header set {Term, Definition, Pronunciation} that does not
contain the column. -/
theorem validateMapping_no_header_check_cex :
    (validateMapping ⟨"Nonexistent", "", "", "", ""⟩).1 = true
      ∧ "Nonexistent" ∉ (["Term", "Definition", "Pronunciation"] : List String) := by
  decide

/-- C2 (amended): `validateMapping` returns `valid = true` only if the
canonical field `japanese` is mapped to a non-empty column name; membership
of that column in the analyzed header set is not checked by this function. -/
theorem validateMapping_valid_requires_japanese (m : FieldMapping)
    (h : (validateMapping m).1 = true) : m.japanese ≠ "" := by
  intro hj
  have hreq : requiredErrors m = [("japanese", "Japanese Word is required")] := by
    rw [requiredErrors_eq, if_pos hj]
  by_cases hnd : (usedHeaders m).Nodup
  · simp [validateMapping, hnd, hreq] at h
  · simp [validateMapping, hnd] at h

/-- Witness for the amended C2: a mapping with a non-empty `japanese` column
that passes validation. -/
theorem validateMapping_valid_requires_japanese_witness :
    (validateMapping ⟨"Term", "", "", "", ""⟩).1 = true
      ∧ FieldMapping.japanese ⟨"Term", "", "", "", ""⟩ ≠ "" :=
  ⟨by decide, validateMapping_valid_requires_japanese ⟨"Term", "", "", "", ""⟩ (by decide)⟩

/-- C5: `validateMapping` is pure and idempotent.  Viewed as a state
transformer on the component's `validationErrors` state, a call's result and
final state do not depend on the incoming state, and running the check twice
with the same input leaves exactly the state and answer of running it
once. -/
theorem validateMapping_pure_idempotent (m : FieldMapping)
    (s₁ s₂ : List (String × String)) :
    validateMappingRun m s₁ = validateMappingRun m s₂
      ∧ validateMappingRun m (validateMappingRun m s₁).2 = validateMappingRun m s₁ :=
  ⟨rfl, rfl⟩

/-- C10: empty-string ("not mapped") entries are invisible to the duplicate
check: if no two distinct non-empty mapped columns coincide — no matter how
many fields are simultaneously mapped to the empty string — and `japanese`
is mapped, validation succeeds with an empty errors record. -/
theorem validateMapping_empty_columns_no_collision (m : FieldMapping)
    (hj : m.japanese ≠ "")
    (hpw : (mappingValues m).Pairwise (fun a b => a ≠ "" → b ≠ "" → a ≠ b)) :
    validateMapping m = (true, []) := by
  have hsub : (usedHeaders m).Pairwise (fun a b => a ≠ "" → b ≠ "" → a ≠ b) :=
    hpw.sublist (List.filter_sublist _)
  have hnd : (usedHeaders m).Nodup := by
    refine hsub.imp_of_mem ?_
    intro a b ha hb hab
    have ha' : a ≠ "" := by
      have := (List.mem_filter.1 ha).2
      simpa [bne_iff_ne] using this
    have hb' : b ≠ "" := by
      have := (List.mem_filter.1 hb).2
      simpa [bne_iff_ne] using this
    exact hab ha' hb'
  simp [validateMapping, hnd, requiredErrors_eq, hj]

/-- Witness for C10: four canonical fields simultaneously mapped to the
empty string produce neither a duplicate-column error nor invalidity. -/
theorem validateMapping_empty_columns_no_collision_witness :
    FieldMapping.japanese ⟨"A", "", "", "", ""⟩ ≠ ""
      ∧ (mappingValues ⟨"A", "", "", "", ""⟩).Pairwise
          (fun a b => a ≠ "" → b ≠ "" → a ≠ b)
      ∧ validateMapping ⟨"A", "", "", "", ""⟩ = (true, []) :=
  ⟨by decide, by decide,
    validateMapping_empty_columns_no_collision ⟨"A", "", "", "", ""⟩
      (by decide) (by decide)⟩

end AnkiApp

namespace AnkiApp

/-- Character-wise: `pat` begins `s`. -/
def charsLead : List Char → List Char → Bool
  | [], _ => true
  | _ :: _, [] => false
  | p :: ps, c :: cs => p == c && charsLead ps cs

/-- Character-wise: `pat` occurs contiguously inside `s` (JavaScript's
`String.prototype.includes`). -/
def charsContain (pat : List Char) : List Char → Bool
  | [] => pat.isEmpty
  | c :: cs => charsLead pat (c :: cs) || charsContain pat cs

/-- `header.toLowerCase().includes(synonym.toLowerCase())` of
`findPossibleMatches`.  Lower-casing is per character; on the ASCII and CJK
characters appearing in headers and synonym tables this agrees with
JavaScript's `toLowerCase`. -/
def lowerIncludes (header synonym : String) : Bool :=
  charsContain (synonym.data.map Char.toLower) (header.data.map Char.toLower)

/-- The per-field synonym table of `findPossibleMatches`
(`src/unnamed/part_007`), in source order. -/
def synonyms : String → List String
  | "japanese" => ["japanese", "word", "expression", "kanji", "vocabulary", "日本語", "front"]
  | "english" => ["english", "meaning", "translation", "definition", "英語", "back"]
  | "reading" => ["reading", "pronunciation", "kana", "hiragana", "yomigana", "読み方"]
  | "example" => ["example", "sentence", "usage", "context", "例文"]
  | "tags" => ["tags", "tag", "category", "categories", "group"]
  | _ => []

/-- `findPossibleMatches` of the FieldMapper component: the headers whose
lower-cased text contains some synonym of the requested canonical field. -/
def findPossibleMatches (ankiField : String) (headers : List String) : List String :=
  if headers.isEmpty then []
  else
    headers.filter fun header =>
      (synonyms ankiField).any fun syn => lowerIncludes header syn

/-- Modelled from the claim's wording (C6): the synonym lists exactly as the
claim enumerates them — japanese: japanese/word/front/kanji/vocabulary/
expression/日本語; english: english/meaning/translation/back/definition;
reading: reading/pronunciation/kana/hiragana/yomigana; example:
example/sentence/usage/context; tags: tag/tags/category/categories/group. -/
def claimedSynonyms : String → List String
  | "japanese" => ["japanese", "word", "front", "kanji", "vocabulary", "expression", "日本語"]
  | "english" => ["english", "meaning", "translation", "back", "definition"]
  | "reading" => ["reading", "pronunciation", "kana", "hiragana", "yomigana"]
  | "example" => ["example", "sentence", "usage", "context"]
  | "tags" => ["tag", "tags", "category", "categories", "group"]
  | _ => []

/-- Candidacy as the claim states it: some claimed synonym occurs
case-insensitively as a substring of the header. -/
def claimedCandidate (field header : String) : Bool :=
  (claimedSynonyms field).any fun syn => lowerIncludes header syn

/-- The synonym lists as the claim's enumeration must be amended: the code's
table additionally holds the native-script synonyms 英語 (english), 読み方
(reading) and 例文 (example). -/
def amendedSynonyms : String → List String
  | "japanese" => ["japanese", "word", "front", "kanji", "vocabulary", "expression", "日本語"]
  | "english" => ["english", "meaning", "translation", "back", "definition", "英語"]
  | "reading" => ["reading", "pronunciation", "kana", "hiragana", "yomigana", "読み方"]
  | "example" => ["example", "sentence", "usage", "context", "例文"]
  | "tags" => ["tag", "tags", "category", "categories", "group"]
  | _ => []

/-- C6 counterexample: the header 「英語」 is a candidate match for the
`english` field in the code (its synonym table holds 英語), but no synonym of
the claim's english list occurs in it — the claim's "if and only if" fails. -/
theorem findPossibleMatches_claimed_list_cex :
    findPossibleMatches "english" ["英語"] = ["英語"]
      ∧ claimedCandidate "english" "英語" = false := by
  decide

/-- C6 (amended): for every canonical field, a header is a candidate match
if and only if some synonym from the amended list (the claim's lists plus
the native-script labels 英語, 読み方, 例文) occurs case-insensitively as a
substring of the header. -/
theorem findPossibleMatches_synonym_characterization
    (field header : String) (headers : List String)
    (hfield : field ∈ canonicalIds) :
    header ∈ findPossibleMatches field headers
      ↔ header ∈ headers
        ∧ ((amendedSynonyms field).any fun syn => lowerIncludes header syn) = true := by
  have hsets : ∀ h' : String,
      ((synonyms field).any fun syn => lowerIncludes h' syn)
        = ((amendedSynonyms field).any fun syn => lowerIncludes h' syn) := by
    intro h'
    simp only [canonicalIds, List.mem_cons, List.not_mem_nil, or_false] at hfield
    rcases hfield with rfl | rfl | rfl | rfl | rfl <;>
      rw [Bool.eq_iff_iff] <;>
      simp only [synonyms, amendedSynonyms, List.any_cons, List.any_nil,
        Bool.or_eq_true] <;>
      tauto
  by_cases hemp : headers.isEmpty
  · rw [List.isEmpty_iff] at hemp
    subst hemp
    simp [findPossibleMatches]
  · rw [findPossibleMatches, if_neg hemp, List.mem_filter, hsets]

/-- Witness for the amended C6 at a concrete field and header. -/
theorem findPossibleMatches_synonym_characterization_witness :
    "英語" ∈ findPossibleMatches "english" ["英語", "Other"]
      ↔ "英語" ∈ ["英語", "Other"]
        ∧ ((amendedSynonyms "english").any fun syn => lowerIncludes "英語" syn) = true :=
  findPossibleMatches_synonym_characterization "english" "英語" ["英語", "Other"]
    (by decide)

end AnkiApp

namespace AnkiApp

/-- The `ValidationResult` payload returned by the server's
`/api/mapping/validate` endpoint: the `valid` flag and the `errors` record. -/
structure ValidationResponse where
  valid : Bool
  errors : List (String × String)
deriving DecidableEq

/-- `validateFieldMapping` of the API client (`src/unnamed/part_004`): posts
the session id and mapping to the server and returns `response.data`; any
failure of the request — network error, non-2xx status, anything `axios`
throws — is caught and turned into the structured fallback result instead of
being rethrown.  The server round trip is abstracted as a function from
session id and mapping to either an error or a response payload. -/
def validateFieldMapping
    (server : String → FieldMapping → Except String ValidationResponse)
    (sessionId : String) (mapping : FieldMapping) : ValidationResponse :=
  match server sessionId mapping with
  | .ok response => response
  | .error _ =>
      { valid := false
        errors := [("_general", "Failed to validate field mapping with server")] }

/-- C9: for every session id and mapping, when the server request fails for
any reason the API-client wrapper does not propagate the error but returns
the structured result {valid: false, errors: {_general: "Failed to validate
field mapping with server"}}. -/
theorem validateFieldMapping_never_throws
    (server : String → FieldMapping → Except String ValidationResponse)
    (sessionId : String) (mapping : FieldMapping) (err : String)
    (hfail : server sessionId mapping = .error err) :
    validateFieldMapping server sessionId mapping
      = { valid := false
          errors := [("_general", "Failed to validate field mapping with server")] } := by
  simp [validateFieldMapping, hfail]

/-- Witness for C9: a server stub that always fails with a network error. -/
theorem validateFieldMapping_never_throws_witness :
    validateFieldMapping (fun _ _ => .error "network error") "session-1"
        ⟨"Term", "", "", "", ""⟩
      = { valid := false
          errors := [("_general", "Failed to validate field mapping with server")] } :=
  validateFieldMapping_never_throws (fun _ _ => .error "network error") "session-1"
    ⟨"Term", "", "", "", ""⟩ "network error" rfl

end AnkiApp

namespace AnkiApp

/-- An example sentence attached to a vocabulary entry (spec §3). -/
structure ExampleSentence where
  japaneseSentence : String
  englishTranslation : String
  audioRef : Option String
deriving DecidableEq

/-- The enriched/normalized unit per CSV row (spec §3): a required Japanese
headword, English meaning, optional reading, example sentences, tags and an
optional audio reference. -/
structure VocabularyEntry where
  japanese : String
  english : String
  reading : Option String
  examples : List ExampleSentence
  tags : List String
  audioRef : Option String
deriving DecidableEq

/-- The recognized enrichment flags (spec §3). -/
structure EnrichmentOptions where
  enrichCards : Bool
  includeAudio : Bool
  includeExamples : Bool
  includeExampleAudio : Bool
  useCore2000 : Bool
deriving DecidableEq

/-- One sense of a dictionary lookup result: a distinct meaning group with
its own part-of-speech tags (spec §6 and glossary). -/
structure LookupSense where
  meanings : List String
  partsOfSpeech : List String
deriving DecidableEq

/-- A lookup service result (spec §6): every field may be absent and the
caller must tolerate that. -/
structure LookupResult where
  reading : Option String
  meanings : List String
  partsOfSpeech : List String
  senses : Option (List LookupSense)
  examples : List (String × String)
deriving DecidableEq

/-- A flashcard (spec §3): front, back and tags. -/
structure Card where
  front : String
  back : String
  tags : List String
deriving DecidableEq

/-- Modelled from the spec: the backend EnrichmentOrchestrator's `enrich`
(Python, not shipped under `src/`).  Per spec §4.4: if `enrichCards` is
false the entry passes through verbatim with no service call; otherwise the
lookup service is queried for the headword and, on success, the returned
reading/meanings/examples are merged without overwriting fields the CSV
already supplied; on lookup failure the entry is returned unchanged — the
failure never propagates (the function is total and returns a
`VocabularyEntry`, never an error). -/
def enrich (entry : VocabularyEntry) (opts : EnrichmentOptions)
    (lookupService : String → Except String LookupResult) : VocabularyEntry :=
  if !opts.enrichCards then entry
  else
    match lookupService entry.japanese with
    | .error _ => entry
    | .ok r =>
        { entry with
          reading :=
            match entry.reading with
            | some rd => some rd
            | none => r.reading
          english :=
            if entry.english = "" then String.intercalate ", " r.meanings
            else entry.english
          examples :=
            if opts.includeExamples && entry.examples.isEmpty then
              r.examples.map fun p => ⟨p.1, p.2, none⟩
            else entry.examples }

/-- An `[sound:…]` marker for an audio reference, empty when absent. -/
def audioMarker : Option String → String
  | some ref => "[sound:" ++ ref ++ "]"
  | none => ""

/-- The example-sentence text block of a card back. -/
def exampleText (entry : VocabularyEntry) : String :=
  String.intercalate "<br>" (entry.examples.map fun ex =>
    ex.japaneseSentence ++ " — " ++ ex.englishTranslation)

/-- Modelled from the spec: the backend CardAssembler's `assemble` (Python,
not shipped under `src/`; card layout per spec §4.5 and
`CORE2000-README.md`).  Single-card mode: one card, front the Japanese
headword (plus audio marker when present), back reading + meaning +
example.  Dual-card (Core2000) mode: a Recognition card (front: Japanese;
back: reading + meaning + example) and a Production card (front: English
meaning; back: Japanese + reading + audio + example), each tagged with the
entry's tags. -/
def assemble (entry : VocabularyEntry) (opts : EnrichmentOptions) : List Card :=
  if opts.useCore2000 then
    [ { front := entry.japanese
        back := entry.reading.getD "" ++ "<br>" ++ entry.english ++ "<br>"
          ++ exampleText entry
        tags := entry.tags },
      { front := entry.english
        back := entry.japanese ++ "<br>" ++ entry.reading.getD "" ++ "<br>"
          ++ audioMarker entry.audioRef ++ "<br>" ++ exampleText entry
        tags := entry.tags } ]
  else
    [ { front := entry.japanese ++ audioMarker entry.audioRef
        back := entry.reading.getD "" ++ "<br>" ++ entry.english ++ "<br>"
          ++ exampleText entry
        tags := entry.tags } ]

/-- `assemble` always emits at least one card. -/
theorem assemble_ne_nil (entry : VocabularyEntry) (opts : EnrichmentOptions) :
    assemble entry opts ≠ [] := by
  by_cases hc : opts.useCore2000 <;> simp [assemble, hc]

/-- C3: enrichment failure isolation.  With a lookup service that fails on
every word, `enrich` never raises — it returns each entry unchanged
(pass-through), a whole batch maps to itself, and the deck assembled from
the batch is still produced (non-empty for a non-empty batch). -/
theorem enrich_failing_lookup_passthrough (opts : EnrichmentOptions)
    (lookupService : String → Except String LookupResult)
    (hfail : ∀ w, ∃ msg, lookupService w = .error msg)
    (entry : VocabularyEntry) (entries : List VocabularyEntry) :
    enrich entry opts lookupService = entry
      ∧ entries.map (fun x => enrich x opts lookupService) = entries
      ∧ (entries ≠ [] →
          entries.flatMap (fun x => assemble (enrich x opts lookupService) opts) ≠ []) := by
  have hone : ∀ x : VocabularyEntry, enrich x opts lookupService = x := by
    intro x
    obtain ⟨msg, hmsg⟩ := hfail x.japanese
    by_cases hopt : opts.enrichCards <;> simp [enrich, hopt, hmsg]
  refine ⟨hone entry, ?_, ?_⟩
  · have hid : (fun x : VocabularyEntry => enrich x opts lookupService) = id :=
      funext fun x => hone x
    rw [hid, List.map_id]
  · intro hne
    cases entries with
    | nil => exact absurd rfl hne
    | cons a t =>
        rw [List.flatMap_cons]
        intro habs
        exact assemble_ne_nil (enrich a opts lookupService) opts
          (List.append_eq_nil.1 habs).1

/-- Witness for C3: a concrete entry and batch against an always-failing
lookup stub. -/
theorem enrich_failing_lookup_passthrough_witness :
    enrich ⟨"猫", "cat", some "ねこ", [], ["animal"], none⟩
        ⟨true, true, true, true, false⟩ (fun _ => .error "lookup down")
      = ⟨"猫", "cat", some "ねこ", [], ["animal"], none⟩
      ∧ ([⟨"猫", "cat", some "ねこ", [], ["animal"], none⟩] :
          List VocabularyEntry).map
            (fun x => enrich x ⟨true, true, true, true, false⟩
              (fun _ => .error "lookup down"))
        = [⟨"猫", "cat", some "ねこ", [], ["animal"], none⟩]
      ∧ ([⟨"猫", "cat", some "ねこ", [], ["animal"], none⟩] :
          List VocabularyEntry).flatMap
            (fun x => assemble
              (enrich x ⟨true, true, true, true, false⟩
                (fun _ => .error "lookup down"))
              ⟨true, true, true, true, false⟩)
        ≠ [] := by
  obtain ⟨h1, h2, h3⟩ :=
    enrich_failing_lookup_passthrough ⟨true, true, true, true, false⟩
      (fun _ => .error "lookup down") (fun _ => ⟨"lookup down", rfl⟩)
      ⟨"猫", "cat", some "ねこ", [], ["animal"], none⟩
      [⟨"猫", "cat", some "ねこ", [], ["animal"], none⟩]
  exact ⟨h1, h2, h3 (by simp)⟩

/-- C4: in Core2000 mode `assemble` returns exactly two cards — a
Recognition card whose front is the Japanese headword and a Production card
whose front is the English meaning (fronts differing whenever the headword
and the meaning differ), both carrying exactly the entry's tags. -/
theorem assemble_core2000_two_cards (entry : VocabularyEntry)
    (opts : EnrichmentOptions) (hcore : opts.useCore2000 = true) :
    ∃ recognition production : Card,
      assemble entry opts = [recognition, production]
        ∧ recognition.front = entry.japanese
        ∧ production.front = entry.english
        ∧ recognition.tags = entry.tags
        ∧ production.tags = entry.tags
        ∧ (entry.japanese ≠ entry.english → recognition.front ≠ production.front) := by
  refine
    ⟨{ front := entry.japanese
       back := entry.reading.getD "" ++ "<br>" ++ entry.english ++ "<br>"
         ++ exampleText entry
       tags := entry.tags },
     { front := entry.english
       back := entry.japanese ++ "<br>" ++ entry.reading.getD "" ++ "<br>"
         ++ audioMarker entry.audioRef ++ "<br>" ++ exampleText entry
       tags := entry.tags },
     ?_, rfl, rfl, rfl, rfl, fun h => h⟩
  simp [assemble, hcore]

/-- Witness for C4 at a concrete entry. -/
theorem assemble_core2000_two_cards_witness :
    ∃ recognition production : Card,
      assemble ⟨"猫", "cat", some "ねこ", [], ["animal"], none⟩
          ⟨false, false, false, false, true⟩ = [recognition, production]
        ∧ recognition.front = "猫"
        ∧ production.front = "cat"
        ∧ recognition.tags = ["animal"]
        ∧ production.tags = ["animal"]
        ∧ recognition.front ≠ production.front := by
  obtain ⟨r, p, h1, h2, h3, h4, h5, h6⟩ :=
    assemble_core2000_two_cards ⟨"猫", "cat", some "ねこ", [], ["animal"], none⟩
      ⟨false, false, false, false, true⟩ rfl
  exact ⟨r, p, h1, h2, h3, h4, h5, h6 (by decide)⟩

end AnkiApp

namespace AnkiApp

/-- The word-lookup page's result payload (`lookupWord` response consumed in
`src/unnamed/part_007`): headword, reading, top-level meanings and
parts-of-speech, the optional list of senses and example pairs. -/
structure WordLookupResult where
  word : String
  reading : String
  meanings : List String
  parts_of_speech : List String
  senses : Option (List LookupSense)
  examples : List (String × String)
deriving DecidableEq

/-- The lookup page's state relevant to sense selection: the stored result
and the currently selected sense indices. -/
structure LookupViewState where
  result : Option WordLookupResult
  selectedSenseIds : List Nat
deriving DecidableEq

/-- `handleLookup`'s state update on a successful `lookupWord` call
(`src/unnamed/part_007`): the full result is stored unmodified
(`setResult(data)`) and, when the result carries at least one sense, index 0
is selected — a single sense is auto-selected, with several the first is
pre-selected for the user to change; with no senses the selection is
cleared.  The inner branch on `senses.length === 1` is kept although both
arms select `[0]`, mirroring the source. -/
def handleLookup (data : WordLookupResult) : LookupViewState :=
  { result := some data
    selectedSenseIds :=
      match data.senses with
      | some senses =>
          if 0 < senses.length then
            if senses.length = 1 then [0] else [0]
          else []
      | none => [] }

/-- Outcome of `handleAddToCollection`: either blocked with a warning toast
(several senses available but none selected) or an `addWordToCollection`
call carrying the meanings and parts of speech filtered by the selection. -/
inductive AddOutcome where
  | blocked (title description : String)
  | added (meanings partsOfSpeech : List String) (senseIds : Option (List Nat))
deriving DecidableEq

/-- `handleAddToCollection` (`src/unnamed/part_007`): when the result has
more than one sense and no sense is selected, the add is refused with a
warning instead of silently picking a sense; otherwise the meanings and
parts of speech are rebuilt from the selected senses (indices out of range
are skipped), falling back to the result's top-level lists when no senses
are present or none is selected. -/
def handleAddToCollection (result : WordLookupResult)
    (selectedSenseIds : List Nat) : AddOutcome :=
  if result.senses.isSome ∧ 1 < (result.senses.getD []).length
      ∧ selectedSenseIds = [] then
    .blocked "Please select meanings"
      "Please select at least one meaning to add to your collection."
  else
    let selectedMeanings :=
      if result.senses.isSome ∧ selectedSenseIds ≠ [] then
        selectedSenseIds.flatMap fun senseId =>
          match (result.senses.getD [])[senseId]? with
          | some sense => sense.meanings
          | none => []
      else result.meanings
    let selectedPartsOfSpeech :=
      if result.senses.isSome ∧ selectedSenseIds ≠ [] then
        selectedSenseIds.flatMap fun senseId =>
          match (result.senses.getD [])[senseId]? with
          | some sense => sense.partsOfSpeech
          | none => []
      else result.parts_of_speech
    .added selectedMeanings selectedPartsOfSpeech
      (if selectedSenseIds ≠ [] then some selectedSenseIds else none)

/-- C7: senses are surfaced, never silently picked.  On a successful lookup
the stored result is the full payload with all its senses; when senses
exist, the default selection is exactly the first sense (index 0) only; and
with several senses and no selection, adding to the collection is blocked
with a prompt for an explicit choice rather than proceeding. -/
theorem lookup_senses_surfaced (data : WordLookupResult)
    (senses : List LookupSense) (hs : data.senses = some senses) :
    (handleLookup data).result = some data
      ∧ (senses ≠ [] → (handleLookup data).selectedSenseIds = [0])
      ∧ (1 < senses.length →
          handleAddToCollection data []
            = .blocked "Please select meanings"
              "Please select at least one meaning to add to your collection.") := by
  refine ⟨rfl, ?_, ?_⟩
  · intro hne
    have hpos : 0 < senses.length := List.length_pos.2 hne
    by_cases h1 : senses.length = 1 <;> simp [handleLookup, hs, hpos, h1]
  · intro hgt
    simp [handleAddToCollection, hs, hgt]

/-- Witness for C7 at a two-sense lookup result. -/
theorem lookup_senses_surfaced_witness :
    (handleLookup ⟨"かける", "かける", ["to hang"], ["verb"],
        some [⟨["to hang"], ["verb"]⟩, ⟨["to call"], ["verb"]⟩], []⟩).result
      = some ⟨"かける", "かける", ["to hang"], ["verb"],
          some [⟨["to hang"], ["verb"]⟩, ⟨["to call"], ["verb"]⟩], []⟩
      ∧ (handleLookup ⟨"かける", "かける", ["to hang"], ["verb"],
          some [⟨["to hang"], ["verb"]⟩, ⟨["to call"], ["verb"]⟩], []⟩).selectedSenseIds
        = [0]
      ∧ handleAddToCollection ⟨"かける", "かける", ["to hang"], ["verb"],
          some [⟨["to hang"], ["verb"]⟩, ⟨["to call"], ["verb"]⟩], []⟩ []
        = .blocked "Please select meanings"
          "Please select at least one meaning to add to your collection." := by
  obtain ⟨h1, h2, h3⟩ :=
    lookup_senses_surfaced
      ⟨"かける", "かける", ["to hang"], ["verb"],
        some [⟨["to hang"], ["verb"]⟩, ⟨["to call"], ["verb"]⟩], []⟩
      [⟨["to hang"], ["verb"]⟩, ⟨["to call"], ["verb"]⟩] rfl
  exact ⟨h1, h2 (by decide), h3 (by decide)⟩

end AnkiApp
